import Mathlib

/-!
Shallow embedding of the single-decree Paxos replica implemented in
`src/paxos.rs`.  Proposal ids are 64-bit unsigned integers, modelled as `Nat`
with explicit reduction modulo `2 ^ 64` where the source can overflow.  Byte
buffers (`Vec<u8>`, the state file contents) are modelled as `List Nat`.
Fallible operations return `Except Unit` results; disk failures are driven by
an explicit `diskOk` flag.  Remote RPC outcomes are inputs to the proposer
functions: each remote peer contributes `none` (transport error or error
reply, which the source only logs) or `some response`.
-/

namespace SingleDecree

/-- A value: the bytes of a Rust `Vec<u8>`. -/
abbrev Value := List Nat

/-- Modulus of the 64-bit unsigned proposal-id arithmetic. -/
def U64 : Nat := 2 ^ 64

/-- PrepareRequest (paxos.rs lines 41-43). -/
structure PrepareRequest where
  proposal_id : Nat
deriving DecidableEq, Repr

/-- PrepareResponse (paxos.rs lines 46-49). -/
structure PrepareResponse where
  proposal_id : Nat
  proposal_value : Option Value
deriving DecidableEq, Repr

/-- AcceptRequest (paxos.rs lines 52-55). -/
structure AcceptRequest where
  proposal_id : Nat
  proposal_value : Value
deriving DecidableEq, Repr

/-- AcceptResponse (paxos.rs lines 58-61). -/
structure AcceptResponse where
  proposal_id : Nat
  proposal_value : Option Value
deriving DecidableEq, Repr

/-- The `Paxos` struct (paxos.rs lines 17-38): the proposer's counter, the
acceptor's in-memory fields, and the byte contents of the state file. -/
structure Paxos where
  current_proposal_id : Nat
  proposal_id : Nat
  proposal_value : Option Value
  state_file : List Nat
deriving DecidableEq, Repr

/-- The `State` record decoded by `read_state` (paxos.rs lines 64-67). -/
structure State where
  proposal_id : Nat
  proposal_value : Option Value
deriving DecidableEq, Repr

/-- Little-endian byte encoding of `n` on `k` bytes, as produced by
`write_u64_le` for `k = 8`. -/
def leBytes : Nat → Nat → List Nat
  | 0, _ => []
  | k + 1, n => n % 256 :: leBytes k (n / 256)

/-- The 8 little-endian bytes written for a `u64`. -/
def le64 (n : Nat) : List Nat := leBytes 8 n

/-- Little-endian decoding of a byte list, as `read_u64_le` does on 8 bytes. -/
def readLeBytes : List Nat → Nat
  | [] => 0
  | b :: rest => b + 256 * readLeBytes rest

/-- Effect on the file contents of `seek(Start(0))` followed by writing `buf`:
the written bytes overwrite a prefix of the file and any longer tail is kept,
because the source never truncates the file. -/
def writeAt0 (buf file : List Nat) : List Nat := buf ++ file.drop buf.length

/-- read_state (paxos.rs lines 69-98): an empty file is a fresh acceptor,
fewer than 8 bytes fail `read_u64_le`, otherwise the first 8 bytes are the
little-endian proposal id and the remaining bytes the value, an empty
remainder decoding to no accepted value. -/
def read_state (file : List Nat) : Except Unit (Option State) :=
  if file = [] then .ok none
  else if file.length < 8 then .error ()
  else
    .ok (some { proposal_id := readLeBytes (file.take 8),
                proposal_value := if file.drop 8 = [] then none
                                  else some (file.drop 8) })

/-- Paxos::on_prepare (paxos.rs lines 308-332).  When the requested id is
greater than the promised one, the promise is updated in memory and the new
id is persisted (seek to 0, write 8 bytes, sync); when the disk fails the
error is returned with the memory update already applied (line 310 precedes
the writes).  Otherwise nothing is mutated.  Every successful reply carries
the current promise and currently accepted value. -/
def Paxos.on_prepare (diskOk : Bool) (s : Paxos) (m : PrepareRequest) :
    Paxos × Except Unit PrepareResponse :=
  if s.proposal_id < m.proposal_id then
    if diskOk then
      ({ s with proposal_id := m.proposal_id,
                state_file := writeAt0 (le64 m.proposal_id) s.state_file },
       .ok { proposal_id := m.proposal_id, proposal_value := s.proposal_value })
    else
      ({ s with proposal_id := m.proposal_id }, .error ())
  else
    (s, .ok { proposal_id := s.proposal_id, proposal_value := s.proposal_value })

/-- Paxos::on_accept (paxos.rs lines 334-374).  A request below the promise
is rejected with the current state.  Otherwise the memory fields are set
(lines 342-343) before the buffer is written from offset 0 and synced; on a
disk failure the error is returned with the memory update kept.  The success
reply carries the request id and `none` in the value slot. -/
def Paxos.on_accept (diskOk : Bool) (s : Paxos) (m : AcceptRequest) :
    Paxos × Except Unit AcceptResponse :=
  if m.proposal_id < s.proposal_id then
    (s, .ok { proposal_id := s.proposal_id, proposal_value := s.proposal_value })
  else if diskOk then
    ({ s with proposal_id := m.proposal_id,
              proposal_value := some m.proposal_value,
              state_file := writeAt0 (le64 m.proposal_id ++ m.proposal_value)
                              s.state_file },
     .ok { proposal_id := m.proposal_id, proposal_value := none })
  else
    ({ s with proposal_id := m.proposal_id,
              proposal_value := some m.proposal_value },
     .error ())

/-- Paxos::majority (paxos.rs lines 131-133), with `N` the length of the
acceptor list (which contains the local address). -/
def Paxos.majority (N : Nat) : Nat := N / 2 + 1

/-- Accumulator of the Phase-1 tally loop (paxos.rs lines 184-186). -/
structure Phase1Tally where
  response_count : Nat
  highest_proposal_id : Nat
  accepted_value : Option Value
deriving DecidableEq, Repr

/-- One iteration of the Phase-1 loop (paxos.rs lines 188-210): transport
errors and error replies are skipped; a successful reply is counted, the
highest returned proposal id is tracked, and any returned value overwrites
the previously tracked accepted value. -/
def phase1Step (t : Phase1Tally) (r : Option PrepareResponse) : Phase1Tally :=
  match r with
  | none => t
  | some resp =>
    { response_count := t.response_count + 1,
      highest_proposal_id := max t.highest_proposal_id resp.proposal_id,
      accepted_value := if resp.proposal_value.isSome then resp.proposal_value
                        else t.accepted_value }

/-- The full Phase-1 tally over the remote results, starting from zero counts
and no accepted value (paxos.rs lines 184-210). -/
def phase1Tally (rs : List (Option PrepareResponse)) : Phase1Tally :=
  rs.foldl phase1Step { response_count := 0, highest_proposal_id := 0,
                        accepted_value := none }

/-- The Phase-2 response loop (paxos.rs lines 272-297): errors are skipped;
a successful reply whose proposal id exceeds the proposer's current id aborts
(`none`, preemption); otherwise replies are counted. -/
def acceptTally (current_pid : Nat) : List (Option AcceptResponse) → Option Nat
  | [] => some 0
  | none :: rest => acceptTally current_pid rest
  | some resp :: rest =>
      if current_pid < resp.proposal_id then none
      else (acceptTally current_pid rest).map (fun c => c + 1)

/-- Outcomes of Paxos::propose / Paxos::accept, one constructor per distinct
`anyhow!` error of the source plus success. -/
inductive ProposeResult where
  | ok
  | errPrepareNoQuorum
  | errAcceptNoQuorum
  | errPreempted
  | errValueAlreadyChosen (value : Value)
deriving DecidableEq, Repr

/-- Paxos::accept (paxos.rs lines 239-306): the local acceptor is invoked
with `self.proposal_id` as the request id (lines 263-268) and its result is
discarded; then the remote replies are tallied against `majority - 1`. -/
def Paxos.accept (diskOk : Bool) (s : Paxos) (N : Nat) (value : Value)
    (accResults : List (Option AcceptResponse)) : Paxos × ProposeResult :=
  let s1 := (Paxos.on_accept diskOk s
      { proposal_id := s.proposal_id, proposal_value := value }).1
  match acceptTally s1.current_proposal_id accResults with
  | none => (s1, .errPreempted)
  | some response_count =>
    if response_count < Paxos.majority N - 1 then (s1, .errAcceptNoQuorum)
    else (s1, .ok)

/-- Increment of `current_proposal_id` at the start of a proposal
(paxos.rs line 152), with `u64` wrap-around. -/
def nextPid (s : Paxos) : Paxos :=
  { s with current_proposal_id := (s.current_proposal_id + 1) % U64 }

/-- Line 219 of paxos.rs: raise `current_proposal_id` to the highest proposal
id seen in Phase 1. -/
def adoptMax (s : Paxos) (t : Phase1Tally) : Paxos :=
  { s with
    current_proposal_id := max s.current_proposal_id t.highest_proposal_id }

/-- The tail of Paxos::propose after the Phase-1 tally (paxos.rs lines
212-236): quorum check against `majority - 1`, then Phase 2 with either the
caller's value or the tracked accepted value; in the latter case a successful
Phase 2 still reports that a value had already been accepted. -/
def proposeAfterPhase1 (diskOk : Bool) (s : Paxos) (N : Nat) (value : Value)
    (t : Phase1Tally) (accResults : List (Option AcceptResponse)) :
    Paxos × ProposeResult :=
  if t.response_count < Paxos.majority N - 1 then (s, .errPrepareNoQuorum)
  else
    match t.accepted_value with
    | none => Paxos.accept diskOk (adoptMax s t) N value accResults
    | some av =>
      match Paxos.accept diskOk (adoptMax s t) N av accResults with
      | (s4, ProposeResult.ok) => (s4, .errValueAlreadyChosen av)
      | r => r

/-- Paxos::propose (paxos.rs lines 151-237): increment the proposal counter,
fan out Prepare (the remote outcomes are the `prepResults` input), invoke the
local acceptor's on_prepare with `self.proposal_id` as the request id and
discard its result (lines 178-182), tally, and continue with Phase 2. -/
def Paxos.propose (diskOk : Bool) (s : Paxos) (N : Nat) (value : Value)
    (prepResults : List (Option PrepareResponse))
    (accResults : List (Option AcceptResponse)) : Paxos × ProposeResult :=
  proposeAfterPhase1 diskOk
    ((Paxos.on_prepare diskOk (nextPid s)
        { proposal_id := (nextPid s).proposal_id }).1)
    N value (phase1Tally prepResults) accResults

/-- One acceptor-side operation, together with the health of the disk while
it runs. -/
inductive AcceptorOp where
  | prep (diskOk : Bool) (m : PrepareRequest)
  | acc (diskOk : Bool) (m : AcceptRequest)

/-- State reached after one acceptor-side operation. -/
def Paxos.step (s : Paxos) : AcceptorOp → Paxos
  | .prep d m => (Paxos.on_prepare d s m).1
  | .acc d m => (Paxos.on_accept d s m).1

/-- State reached after a sequence of acceptor-side operations. -/
def Paxos.run (s : Paxos) (ops : List AcceptorOp) : Paxos :=
  ops.foldl Paxos.step s

/-! Helper lemmas about the byte encoding. -/

theorem leBytes_length (k n : Nat) : (leBytes k n).length = k := by
  induction k generalizing n with
  | zero => rfl
  | succ k ih => simp [leBytes, ih]

theorem readLeBytes_leBytes (k n : Nat) :
    readLeBytes (leBytes k n) = n % 256 ^ k := by
  induction k generalizing n with
  | zero => simp [leBytes, readLeBytes, Nat.mod_one]
  | succ k ih =>
    have hp : (256 : Nat) ^ (k + 1) = 256 * 256 ^ k := by
      rw [pow_succ, Nat.mul_comm]
    rw [leBytes, readLeBytes, ih, hp, Nat.mod_mul]

theorem readLeBytes_le64 (n : Nat) (h : n < 2 ^ 64) :
    readLeBytes (le64 n) = n := by
  have h8 : (2 : Nat) ^ 64 = 256 ^ 8 := by norm_num
  rw [le64, readLeBytes_leBytes, Nat.mod_eq_of_lt (h8 ▸ h)]

theorem le64_length (n : Nat) : (le64 n).length = 8 := leBytes_length 8 n

/-- Decoding a file that is exactly an 8-byte little-endian id followed by
the value bytes. -/
theorem read_state_encode (pid : Nat) (v : List Nat) (h : pid < 2 ^ 64) :
    read_state (le64 pid ++ v) =
      .ok (some { proposal_id := pid,
                  proposal_value := if v = [] then none else some v }) := by
  have hlen : (le64 pid).length = 8 := le64_length pid
  have hne : le64 pid ++ v ≠ [] := by
    intro hh
    have := congrArg List.length hh
    simp [hlen] at this
  have hlen2 : ¬ (le64 pid ++ v).length < 8 := by
    simp [List.length_append, hlen]
  rw [read_state, if_neg hne, if_neg hlen2, List.take_left' hlen,
    List.drop_left' hlen, readLeBytes_le64 pid h]

/-! Helper lemmas about the proposer. -/

/-- The local Phase-1 call of the source passes the acceptor's own promised
id, so its guard `req_pid > promised_id` is false and the state is returned
unchanged. -/
theorem on_prepare_fst_self (d : Bool) (s : Paxos) :
    (Paxos.on_prepare d s { proposal_id := s.proposal_id }).1 = s := by
  simp [Paxos.on_prepare]

theorem propose_eq (d : Bool) (s : Paxos) (N : Nat) (v : Value)
    (pr : List (Option PrepareResponse)) (ar : List (Option AcceptResponse)) :
    Paxos.propose d s N v pr ar =
      proposeAfterPhase1 d (nextPid s) N v (phase1Tally pr) ar := by
  rw [Paxos.propose, on_prepare_fst_self]

theorem on_accept_fst_current (d : Bool) (s : Paxos) (m : AcceptRequest) :
    ((Paxos.on_accept d s m).1).current_proposal_id = s.current_proposal_id := by
  rw [Paxos.on_accept]
  split
  · rfl
  · split <;> rfl

/-- The outcome of Paxos::accept as a function of the tallied responses. -/
def acceptDecision (N : Nat) (t : Option Nat) : ProposeResult :=
  match t with
  | none => .errPreempted
  | some c => if c < Paxos.majority N - 1 then .errAcceptNoQuorum else .ok

theorem accept_snd (d : Bool) (s : Paxos) (N : Nat) (v : Value)
    (ar : List (Option AcceptResponse)) :
    (Paxos.accept d s N v ar).2 =
      acceptDecision N (acceptTally s.current_proposal_id ar) := by
  simp only [Paxos.accept, acceptDecision, on_accept_fst_current]
  cases acceptTally s.current_proposal_id ar with
  | none => rfl
  | some c =>
    simp only []
    split <;> rfl

theorem acceptDecision_ne_prepareNoQuorum (N : Nat) (t : Option Nat) :
    acceptDecision N t ≠ ProposeResult.errPrepareNoQuorum := by
  rw [acceptDecision.eq_def]
  cases t with
  | none => intro h; cases h
  | some c =>
    simp only []
    split <;> intro h <;> cases h

theorem acceptDecision_ne_valueAlreadyChosen (N : Nat) (t : Option Nat)
    (v : Value) :
    acceptDecision N t ≠ ProposeResult.errValueAlreadyChosen v := by
  rw [acceptDecision.eq_def]
  cases t with
  | none => intro h; cases h
  | some c =>
    simp only []
    split <;> intro h <;> cases h

/-! Claim theorems. -/

/-- C1: the Phase-1 tally of the source keeps the LAST accepted value it sees,
not the one carried with the highest proposal id.  From a fresh proposer, with
two successful Prepare replies in order (id 5, value [1]) then (id 3, value
[2]), Phase 2 proposes [2], the value associated with the LOWER id — the claim
requires [1].  The `errValueAlreadyChosen` outcome carries the value that
Phase 2 proposed. -/
theorem c1_phase2_carries_last_value_seen :
    (Paxos.propose true ⟨0, 0, none, []⟩ 3 [7]
        [some ⟨5, some [1]⟩, some ⟨3, some [2]⟩]
        [some ⟨5, none⟩, some ⟨5, none⟩]).2 =
      ProposeResult.errValueAlreadyChosen [2] := by
  decide

/-- C2: during a fully successful Propose from a fresh replica the new
proposal id is 1 (sent to the remote peers), yet the local acceptor is
invoked with `self.proposal_id = 0` (paxos.rs lines 178-182 and 263-268) and
its result discarded: the final state shows `current_proposal_id = 1` but a
local promise still at 0, with the value accepted locally under id 0 (the
state file starts with the 8-byte encoding of 0, not of 1). -/
theorem c2_local_acceptor_invoked_with_stale_pid :
    Paxos.propose true ⟨0, 0, none, []⟩ 3 [7]
        [some ⟨0, none⟩, some ⟨0, none⟩]
        [some ⟨1, none⟩, some ⟨1, none⟩] =
      ({ current_proposal_id := 1, proposal_id := 0,
         proposal_value := some [7],
         state_file := [0, 0, 0, 0, 0, 0, 0, 0, 7] },
       ProposeResult.ok) := by
  decide

/-- C3: the store rewrites the file from offset 0 without truncating, so
accepting value [67] under id 2 after value [65, 66] under id 1 leaves the
stale byte 66 in the file; the loaded record is (2, [67, 66]), not the last
stored pair (2, [67]). -/
theorem c3_load_after_shorter_accept_keeps_stale_tail :
    read_state ((Paxos.on_accept true
        (Paxos.on_accept true ⟨0, 0, none, []⟩ ⟨1, [65, 66]⟩).1
        ⟨2, [67]⟩).1.state_file) =
      .ok (some { proposal_id := 2, proposal_value := some [67, 66] }) ∧
    some ([67, 66] : Value) ≠ some ([67] : Value) := by
  constructor
  · rfl
  · intro h; cases h

/-- C8 counterexample: storing an accepted value that is the empty byte
sequence (id 1, empty value, on a fresh acceptor) and loading yields NO
accepted value, not `some []` — the length-free encoding cannot represent an
empty accepted value. -/
theorem c8_counterexample_empty_value_loads_as_none :
    read_state ((Paxos.on_accept true ⟨0, 0, none, []⟩
        ⟨1, []⟩).1.state_file) =
      .ok (some { proposal_id := 1, proposal_value := none }) ∧
    (none : Option Value) ≠ some [] := by
  constructor
  · rfl
  · intro h; cases h

/-- C8 amended: a zero-length accepted value is NOT distinct from the absence
of an accepted value in this encoding: after a store of an empty accepted
value (over a file holding no longer record), Load returns no accepted
value. -/
theorem c8_amended_empty_value_collapses_to_absence (s : Paxos) (pid : Nat)
    (h1 : s.proposal_id ≤ pid) (h2 : pid < 2 ^ 64)
    (h3 : s.state_file.length ≤ 8) :
    read_state ((Paxos.on_accept true s ⟨pid, []⟩).1.state_file) =
      .ok (some { proposal_id := pid, proposal_value := none }) := by
  have hguard : ¬ pid < s.proposal_id := Nat.not_lt.mpr h1
  have hdrop : s.state_file.drop 8 = [] := List.drop_eq_nil_iff.mpr h3
  rw [Paxos.on_accept, if_neg hguard, if_pos rfl]
  simp only [writeAt0, List.append_nil, le64_length, hdrop]
  have := read_state_encode pid [] h2
  simpa using this

/-- C8 amended, witness at a concrete input. -/
theorem c8_amended_empty_value_collapses_to_absence_witness :
    read_state ((Paxos.on_accept true ⟨0, 0, none, []⟩
        ⟨1, []⟩).1.state_file) =
      .ok (some { proposal_id := 1, proposal_value := none }) :=
  c8_amended_empty_value_collapses_to_absence ⟨0, 0, none, []⟩ 1
    (by decide) (by decide) (by decide)

/-- C4: on_prepare updates the promise and persists (an 8-byte little-endian
rewrite of the file head) exactly when the requested id is strictly greater
than the promised one; on a request at or below the promise nothing is
mutated and nothing is repersisted; in both cases the reply carries the
current promise and the current accepted value. -/
theorem c4_on_prepare_promise_policy (s : Paxos) (m : PrepareRequest) :
    (s.proposal_id < m.proposal_id →
      Paxos.on_prepare true s m =
        ({ s with proposal_id := m.proposal_id,
                  state_file := writeAt0 (le64 m.proposal_id) s.state_file },
         .ok { proposal_id := m.proposal_id,
               proposal_value := s.proposal_value })) ∧
    (m.proposal_id ≤ s.proposal_id →
      Paxos.on_prepare true s m =
        (s, .ok { proposal_id := s.proposal_id,
                  proposal_value := s.proposal_value })) := by
  constructor
  · intro h
    rw [Paxos.on_prepare, if_pos h, if_pos rfl]
  · intro h
    rw [Paxos.on_prepare, if_neg (Nat.not_lt.mpr h)]

/-- C4 witness: both branches at concrete inputs. -/
theorem c4_on_prepare_promise_policy_witness :
    Paxos.on_prepare true ⟨0, 1, some [9], [1, 0, 0, 0, 0, 0, 0, 0, 9]⟩ ⟨3⟩ =
      ({ current_proposal_id := 0, proposal_id := 3,
         proposal_value := some [9],
         state_file := writeAt0 (le64 3) [1, 0, 0, 0, 0, 0, 0, 0, 9] },
       .ok { proposal_id := 3, proposal_value := some [9] }) ∧
    Paxos.on_prepare true ⟨0, 5, some [9], [5, 0, 0, 0, 0, 0, 0, 0, 9]⟩ ⟨5⟩ =
      (⟨0, 5, some [9], [5, 0, 0, 0, 0, 0, 0, 0, 9]⟩,
       .ok { proposal_id := 5, proposal_value := some [9] }) :=
  ⟨(c4_on_prepare_promise_policy _ _).1 (by decide),
   (c4_on_prepare_promise_policy _ _).2 (by decide)⟩

/-- C5: on_accept with a request id below the promise mutates nothing and
replies with the current promise and currently accepted value; with a request
id at or above the promise it sets both the promise and the accepted value to
the request's, persists (8-byte id followed by the value bytes, rewritten
from offset 0), and replies with the request id and `none` in the
accepted-value slot. -/
theorem c5_on_accept_policy (s : Paxos) (m : AcceptRequest) :
    (m.proposal_id < s.proposal_id →
      Paxos.on_accept true s m =
        (s, .ok { proposal_id := s.proposal_id,
                  proposal_value := s.proposal_value })) ∧
    (s.proposal_id ≤ m.proposal_id →
      Paxos.on_accept true s m =
        ({ s with proposal_id := m.proposal_id,
                  proposal_value := some m.proposal_value,
                  state_file := writeAt0
                    (le64 m.proposal_id ++ m.proposal_value) s.state_file },
         .ok { proposal_id := m.proposal_id, proposal_value := none })) := by
  constructor
  · intro h
    rw [Paxos.on_accept, if_pos h]
  · intro h
    rw [Paxos.on_accept, if_neg (Nat.not_lt.mpr h), if_pos rfl]

/-- C5 witness: both branches at concrete inputs. -/
theorem c5_on_accept_policy_witness :
    Paxos.on_accept true ⟨0, 5, some [9], [5, 0, 0, 0, 0, 0, 0, 0, 9]⟩
        ⟨4, [8]⟩ =
      (⟨0, 5, some [9], [5, 0, 0, 0, 0, 0, 0, 0, 9]⟩,
       .ok { proposal_id := 5, proposal_value := some [9] }) ∧
    Paxos.on_accept true ⟨0, 5, some [9], [5, 0, 0, 0, 0, 0, 0, 0, 9]⟩
        ⟨6, [8]⟩ =
      ({ current_proposal_id := 0, proposal_id := 6,
         proposal_value := some [8],
         state_file := writeAt0 (le64 6 ++ [8])
           [5, 0, 0, 0, 0, 0, 0, 0, 9] },
       .ok { proposal_id := 6, proposal_value := none }) :=
  ⟨(c5_on_accept_policy _ _).1 (by decide),
   (c5_on_accept_policy _ _).2 (by decide)⟩

/-- C9: the promised id never decreases across any sequence of on_prepare and
on_accept operations, whatever requests arrive and whether or not each disk
write succeeds. -/
theorem c9_promised_id_monotone (ops : List AcceptorOp) (s : Paxos) :
    s.proposal_id ≤ (Paxos.run s ops).proposal_id := by
  induction ops generalizing s with
  | nil => exact Nat.le_refl _
  | cons op rest ih =>
    have hstep : s.proposal_id ≤ (Paxos.step s op).proposal_id := by
      cases op with
      | prep d m =>
        simp only [Paxos.step, Paxos.on_prepare]
        split
        · split
          · next h _ => exact Nat.le_of_lt h
          · next h _ => exact Nat.le_of_lt h
        · exact Nat.le_refl _
      | acc d m =>
        simp only [Paxos.step, Paxos.on_accept]
        split
        · exact Nat.le_refl _
        · split
          · next h _ => exact Nat.le_of_not_lt h
          · next h _ => exact Nat.le_of_not_lt h
    exact Nat.le_trans hstep (ih (Paxos.step s op))

/-- C10: when the disk fails during on_accept on a request at or above the
promise, the operation returns an error but the in-memory state keeps the
already-applied update: the promise and the accepted value are the request's,
while the file is not durably updated. -/
theorem c10_on_accept_error_keeps_memory_update (s : Paxos)
    (m : AcceptRequest) (h : s.proposal_id ≤ m.proposal_id) :
    Paxos.on_accept false s m =
      ({ s with proposal_id := m.proposal_id,
                proposal_value := some m.proposal_value },
       .error ()) := by
  rw [Paxos.on_accept, if_neg (Nat.not_lt.mpr h)]
  rfl

/-- C10 witness at a concrete input. -/
theorem c10_on_accept_error_keeps_memory_update_witness :
    Paxos.on_accept false ⟨0, 1, none, [1, 0, 0, 0, 0, 0, 0, 0]⟩
        ⟨2, [9]⟩ =
      ({ current_proposal_id := 0, proposal_id := 2,
         proposal_value := some [9],
         state_file := [1, 0, 0, 0, 0, 0, 0, 0] },
       .error ()) :=
  c10_on_accept_error_keeps_memory_update ⟨0, 1, none, [1, 0, 0, 0, 0, 0, 0, 0]⟩
    ⟨2, [9]⟩ (by decide)

theorem proposeAfterPhase1_prepareNoQuorum (d : Bool) (s : Paxos) (N : Nat)
    (v : Value) (t : Phase1Tally) (ar : List (Option AcceptResponse)) :
    (proposeAfterPhase1 d s N v t ar).2 = ProposeResult.errPrepareNoQuorum ↔
      t.response_count < Paxos.majority N - 1 := by
  rw [proposeAfterPhase1.eq_def]
  split
  · next h => exact iff_of_true rfl h
  · next h =>
    refine iff_of_false ?_ h
    cases hav : t.accepted_value with
    | none =>
      dsimp only
      rw [accept_snd]
      exact acceptDecision_ne_prepareNoQuorum N _
    | some av =>
      dsimp only
      cases hacc : Paxos.accept d (adoptMax s t) N av ar with
      | mk s4 r4 =>
        have hr4 : r4 = acceptDecision N
            (acceptTally (adoptMax s t).current_proposal_id ar) := by
          have h2 := accept_snd d (adoptMax s t) N av ar
          rw [hacc] at h2
          exact h2
        cases r4 with
        | ok => intro hc; cases hc
        | errPrepareNoQuorum =>
          exact absurd hr4.symm (acceptDecision_ne_prepareNoQuorum N _)
        | errAcceptNoQuorum => intro hc; cases hc
        | errPreempted => intro hc; cases hc
        | errValueAlreadyChosen w => intro hc; cases hc

/-- C6: Propose fails with the Phase-1 quorum error exactly when the number
of successful remote Prepare replies, plus one for the local replica, is
below the strict majority floor(N/2)+1 of the N peers (the source compares
the remote count against `majority - 1`); likewise Phase 2 fails with the
quorum error exactly when its loop counted (without preemption) fewer
successful replies than the majority, the local one included. -/
theorem c6_quorum_threshold (d : Bool) (s : Paxos) (N : Nat) (v : Value)
    (pr : List (Option PrepareResponse))
    (ar : List (Option AcceptResponse)) :
    ((Paxos.propose d s N v pr ar).2 = ProposeResult.errPrepareNoQuorum ↔
      (phase1Tally pr).response_count + 1 < N / 2 + 1) ∧
    ((Paxos.accept d s N v ar).2 = ProposeResult.errAcceptNoQuorum ↔
      ∃ c, acceptTally s.current_proposal_id ar = some c ∧
        c + 1 < N / 2 + 1) := by
  constructor
  · rw [propose_eq, proposeAfterPhase1_prepareNoQuorum, Paxos.majority]
    omega
  · rw [accept_snd, acceptDecision.eq_def]
    cases h : acceptTally s.current_proposal_id ar with
    | none =>
      refine iff_of_false (fun hc => by cases hc) ?_
      rintro ⟨c, hc, -⟩
      cases hc
    | some c =>
      simp only [Paxos.majority]
      split
      · next hlt =>
        refine iff_of_true rfl ⟨c, rfl, by omega⟩
      · next hge =>
        refine iff_of_false (fun hc => by cases hc) ?_
        rintro ⟨c2, hc2, hlt⟩
        cases hc2
        omega

/-- C7 counterexample: with the local disk failing (so the local acceptor's
on_accept returns an error during Phase 2), a Propose whose remote replies
are all successful still returns success — the source discards the local
acceptor's result, so a local disk error does not abort the proposal. -/
theorem c7_counterexample_local_disk_error_ignored :
    (Paxos.propose false ⟨0, 0, none, []⟩ 3 [7]
        [some ⟨0, none⟩, some ⟨0, none⟩]
        [some ⟨1, none⟩, some ⟨1, none⟩]).2 = ProposeResult.ok := by
  decide

/-- C7 amended: the outcome of Propose is independent of whether the local
acceptor's disk writes succeed (the local on_prepare / on_accept results are
discarded), and remote failures are simply skipped by both tallies, reducing
the response count without aborting. -/
theorem c7_amended_local_disk_error_does_not_abort (s : Paxos) (N : Nat)
    (v : Value) (pr : List (Option PrepareResponse))
    (ar : List (Option AcceptResponse)) :
    ((Paxos.propose false s N v pr ar).2 =
      (Paxos.propose true s N v pr ar).2) ∧
    (∀ t : Phase1Tally, phase1Step t none = t) ∧
    (∀ c rest, acceptTally c (none :: rest) = acceptTally c rest) := by
  refine ⟨?_, fun t => rfl, fun c rest => rfl⟩
  rw [propose_eq, propose_eq, proposeAfterPhase1.eq_def,
    proposeAfterPhase1.eq_def]
  by_cases hq : (phase1Tally pr).response_count < Paxos.majority N - 1
  · rw [if_pos hq, if_pos hq]
  · rw [if_neg hq, if_neg hq]
    cases hav : (phase1Tally pr).accepted_value with
    | none =>
      dsimp only
      rw [accept_snd, accept_snd]
    | some av =>
      dsimp only
      cases h1 : Paxos.accept false (adoptMax (nextPid s) (phase1Tally pr))
          N av ar with
      | mk s4 r4 =>
        cases h2 : Paxos.accept true (adoptMax (nextPid s) (phase1Tally pr))
            N av ar with
        | mk s5 r5 =>
          have e1 := accept_snd false (adoptMax (nextPid s) (phase1Tally pr))
            N av ar
          have e2 := accept_snd true (adoptMax (nextPid s) (phase1Tally pr))
            N av ar
          rw [h1] at e1
          rw [h2] at e2
          have hr : r4 = r5 := e1.trans e2.symm
          cases hr
          cases r4 <;> rfl

end SingleDecree
